import Mathlib

/-
Verification of the lichess report preprocessor (fetch_games.py,
preprocess_and_upload.py, fetch_rating_history.py, fetch_pgn.py,
run_all_scripts.py) against its natural-language specification.

The Python scripts are shallowly embedded: pandas column transformations
become Lean functions over lists of records, fallible steps (exceptions)
return Except, and the Drive upload retry loop becomes a recursion over
the attempt counter driven by an environment describing each attempt.
-/

/-! ## Python string primitives used by the normalizer -/

/-- Embedding of the Python expression x.replace("s", "m") for a pattern and
replacement that are both single characters: every occurrence of the
character s in the string is replaced by m (fetch_games.py line 240,
preprocess_and_upload.py line 181). -/
def pyReplaceSWithM (s : String) : String :=
  ⟨s.data.map (fun c => if c = 's' then 'm' else c)⟩

/-- Embedding of the Python membership test ("+" in x) for the
single-character needle used at fetch_games.py line 240. -/
def pyContainsPlus (s : String) : Bool := s.data.contains '+'

/-- Embedding of len(m.split()) from fetch_games.py line 233: Python
str.split with no argument splits on runs of whitespace and drops empty
tokens, so the count is the number of maximal non-whitespace runs. -/
def countTokens (s : String) : Nat :=
  (s.data.foldl
    (fun (acc : Nat × Bool) c =>
      if c.isWhitespace then (acc.1, false)
      else if acc.2 then acc else (acc.1 + 1, true))
    (0, false)).1

/-! ## Raw game records and the match normalizer (fetch_games.py lines 193-242,
duplicated at preprocess_and_upload.py lines 124-183)

Only the raw fields that the verified claims read are embedded; the other
columns produced by the scripts (players, ratings, winner, opening, status)
are computed row-by-row from fields that do not interact with the claims
below. An Option field set to none models a key that is absent from the raw
JSON object (a NaN cell in the pandas column). -/

structure Clock where
  initial : Option Nat
  increment : Option Nat
deriving Repr, DecidableEq

structure RawGame where
  id : String
  variant : String
  speed : String
  createdAt : Int
  clock : Option Clock
  moves : Option String
  tournament : Option String
deriving Repr, DecidableEq

/-- Row of the preprocessed games CSV restricted to the columns the claims
mention (fetch_games.py lines 241-242). created_at is kept in epoch
milliseconds, the unit the scripts read back out of the datetime values. -/
structure MatchRow where
  game_id : String
  speed : String
  created_at : Int
  tournament : Bool
  time_control : Option String
  move_count : Option Nat
  turns : Option Nat
deriving Repr, DecidableEq

/-- Embedding of format_time_control (fetch_games.py lines 193-207): requires
a clock object with both initial and increment; an initial below one minute
is rendered as a fraction of a minute reduced by gcd(initial, 60), otherwise
as whole minutes by integer division. -/
def format_time_control (clock : Option Clock) : Option String :=
  match clock with
  | none => none
  | some c =>
    match c.initial, c.increment with
    | some initial, some increment =>
      if initial < 60 then
        let common_divisor := Nat.gcd initial 60
        some (toString (initial / common_divisor) ++ "/" ++
              toString (60 / common_divisor) ++ "+" ++ toString increment)
      else
        some (toString (initial / 60) ++ "+" ++ toString increment)
    | _, _ => none

/-- Embedding of fetch_games.py line 239: a null time control on a
correspondence game becomes the literal "daily". -/
def daily_fallback (speed : String) (tc : Option String) : Option String :=
  match tc with
  | none => if speed == "correspondence" then some "daily" else none
  | some s => some s

/-- Embedding of fetch_games.py line 240: in every time-control string that
contains "+", each "s" character is replaced with "m"; null cells and
strings without "+" pass through. -/
def s_to_m_fixup (tc : Option String) : Option String :=
  tc.map (fun x => if pyContainsPlus x then pyReplaceSWithM x else x)

/-- Composition of the two post-formatting steps applied to the
time_control column (fetch_games.py lines 239-240). -/
def finalize_time_control (speed : String) (tc : Option String) : Option String :=
  s_to_m_fixup (daily_fallback speed tc)

/-- Embedding of the column test (if 'moves' in df.columns, fetch_games.py
line 232): a DataFrame built from a list of JSON objects has a moves column
exactly when at least one object carries the key. -/
def has_moves_column (games : List RawGame) : Bool :=
  games.any (fun g => g.moves.isSome)

/-- Embedding of (df.get('tournament') is not None) from fetch_games.py
line 230 and preprocess_and_upload.py line 171: a single batch-wide boolean
recording whether the raw batch has a tournament column at all. -/
def has_tournament_column (games : List RawGame) : Bool :=
  games.any (fun g => g.tournament.isSome)

/-- Embedding of the integer-dtype condition behind the isinstance(mc, int)
guard at fetch_games.py line 234. The move_count column is built over the
rows retained by the variant filter (line 231 runs first); when every
retained row has a move list the column dtype is int64 and pandas boxes
its elements back to Python int for the second apply, so the guard holds
at every row, but when any retained row lacks a move list the column is
promoted to float64 (int plus NaN) or holds None, the guard sees float or
None at every row, and turns is null for the whole batch. -/
def move_count_stays_int (kept : List RawGame) : Bool :=
  kept.all (fun g => g.moves.isSome)

/-- Row construction for one raw game, given the three batch-wide flags:
presence of the moves column, whether the move_count column keeps integer
elements, and the tournament column flag (fetch_games.py lines 222-240).
The turns column recomputes (mc + 1) / 2 under the isinstance(mc, int)
guard of line 234, which holds only when the whole move_count column kept
integer elements. -/
def normalize_game (hasMoves keepsInt tournamentFlag : Bool) (g : RawGame) : MatchRow :=
  { game_id := g.id
    speed := g.speed
    created_at := g.createdAt
    tournament := tournamentFlag
    time_control := finalize_time_control g.speed (format_time_control g.clock)
    move_count := if hasMoves then g.moves.map countTokens else none
    turns :=
      if hasMoves && keepsInt then
        (g.moves.map countTokens).map (fun mc => (mc + 1) / 2)
      else none }

/-- Embedding of the batch-processing block of fetch_games.py lines 209-242.
On an empty batch the very first column assignment
(df['played_as'], df['opponent_color'] = zip(*df.apply(get_sides, axis=1)),
line 210) raises ValueError, because unpacking zip of an empty sequence
yields no values; this is modelled as the Except error below. On a
non-empty batch the rows whose variant is "standard" are kept (line 231)
and normalized. -/
def process_games (games : List RawGame) : Except String (List MatchRow) :=
  match games with
  | [] => Except.error "not enough values to unpack (expected 2, got 0)"
  | _ :: _ =>
    Except.ok ((games.filter (fun g => g.variant == "standard")).map
      (normalize_game (has_moves_column games)
        (move_count_stays_int (games.filter (fun g => g.variant == "standard")))
        (has_tournament_column games)))

/-! ## Dataset merge (preprocess_and_upload.py lines 185-195)

The script concatenates the freshly normalized rows in front of the
previously persisted rows (pd.concat([df_new, df_old])) and sorts the
result by created_at descending. No other transformation is applied:
in particular the source contains no deduplication step. -/

/-- Sort relation of sort_values(by='created_at', ascending=False): a row
sorts no later than another when its created_at is no smaller. -/
def laterFirst (a b : MatchRow) : Prop := b.created_at ≤ a.created_at

instance : DecidableRel laterFirst :=
  fun a b => inferInstanceAs (Decidable (b.created_at ≤ a.created_at))

instance : IsTotal MatchRow laterFirst :=
  ⟨fun a b => le_total b.created_at a.created_at⟩

instance : IsTrans MatchRow laterFirst :=
  ⟨fun _ _ _ h1 h2 => le_trans h2 h1⟩

/-- Embedding of preprocess_and_upload.py lines 188-194: concatenate the
incoming batch in front of the existing dataset and sort by created_at
descending. -/
def merge_games (incoming existing : List MatchRow) : List MatchRow :=
  List.insertionSort laterFirst (incoming ++ existing)

/-! ## Watermark resolution (fetch_games.py lines 132-145)

The script initializes max_created_at to 0, downloads the existing CSV if
possible, parses it with pd.read_csv (no exception handling: a parse
failure propagates and aborts the run), and takes the maximum of the
created_at column when that column is present. An empty created_at column
also raises, because NaT does not support the timestamp conversion. The
fetch request then carries since = max_created_at + 1 only when
max_created_at is strictly positive. -/

structure CsvFrame where
  hasCreatedAt : Bool
  createdAtMs : List Int
deriving Repr, DecidableEq

/-- Embedding of fetch_games.py lines 132-138. The argument is none when
download_from_drive returned False (no existing file, or the download
itself failed and was swallowed at lines 94-96); otherwise it carries the
outcome of parsing the downloaded bytes. -/
def resolve_watermark (download : Option (Except String CsvFrame)) : Except String Int :=
  match download with
  | none => Except.ok 0
  | some (Except.error e) => Except.error e
  | some (Except.ok f) =>
    if f.hasCreatedAt then
      match f.createdAtMs.max? with
      | some m => Except.ok m
      | none => Except.error "NaTType does not support timestamp"
    else Except.ok 0

/-- Embedding of fetch_games.py lines 140-145: the since query parameter is
max_created_at + 1 when max_created_at is strictly positive, and absent
otherwise. -/
def since_param (download : Option (Except String CsvFrame)) : Except String (Option Int) :=
  (resolve_watermark download).map (fun m => if 0 < m then some (m + 1) else none)

/-- Modelled from the spec: the remote games API, given a since parameter,
returns exactly the records whose createdAt is at least since (the spec
calls the interval half-open at the watermark); with no since parameter it
returns every record. The API itself is an external collaborator and is
not part of the repository sources. -/
def since_includes (since : Option Int) (t : Int) : Bool :=
  match since with
  | none => true
  | some s => decide (s ≤ t)

/-! ## Drive publishing with retry (fetch_games.py lines 99-126, duplicated
at preprocess_and_upload.py lines 73-100)

Each loop iteration either succeeds (one files().list lookup followed by
exactly one update of the found file or one create) and breaks, or hits a
transient exception (HttpError, IOError, ssl.SSLEOFError); a transient
failure before the last attempt sleeps 2 ** attempt seconds and retries,
and on the last attempt re-raises. The file content is uploaded whole in
every case: the source contains no size threshold and no splitting. -/

/-- Artifact handed to upload_to_drive: the base name of the local file and
its size in bytes (os.path.getsize, used only for logging). -/
structure Artifact where
  name : String
  sizeBytes : Nat
deriving Repr, DecidableEq

/-- Outcome of one loop attempt, as seen by the script: either one of the
three caught transient exceptions was raised, or the files().list lookup
completed and reported whether an object of that exact name already exists
in the target folder. -/
inductive DriveResp where
  | transient
  | listed (found : Bool)
deriving Repr, DecidableEq

/-- Observable Drive write performed by a successful attempt. -/
inductive WriteOp where
  | update (name : String) (sizeBytes : Nat)
  | create (name : String) (sizeBytes : Nat)
deriving Repr, DecidableEq

/-- Trace of one call to upload_to_drive: the backoff sleeps performed (in
seconds, in order), the object writes performed, and whether the final
exception was re-raised to the caller. -/
structure UploadResult where
  waits : List Nat
  writes : List WriteOp
  raised : Bool
deriving Repr, DecidableEq

def max_retries : Nat := 5

/-- Embedding of the retry loop of upload_to_drive (fetch_games.py lines
104-126) from a given attempt index, driven by an environment giving each
attempt its outcome. -/
def upload_to_drive (a : Artifact) (env : Nat → DriveResp) (attempt : Nat) : UploadResult :=
  match env attempt with
  | DriveResp.listed true => ⟨[], [WriteOp.update a.name a.sizeBytes], false⟩
  | DriveResp.listed false => ⟨[], [WriteOp.create a.name a.sizeBytes], false⟩
  | DriveResp.transient =>
    if h : attempt < max_retries - 1 then
      let rest := upload_to_drive a env (attempt + 1)
      ⟨2 ^ attempt :: rest.waits, rest.writes, rest.raised⟩
    else ⟨[], [], true⟩
termination_by max_retries - attempt
decreasing_by simp [max_retries] at *; omega

/-! ## Rating history pivot, reindex and forward-fill
(preprocess_and_upload.py lines 223-232)

The script pivots the normalized rating points into a frame indexed by
date with one column per category, reindexes that frame to the full daily
range between the minimum and maximum observed date, forward-fills each
column, overlays the original cells on the filled frame with
combine_first, and finally sorts by date descending. Dates are embedded
as day ordinals (Nat); a cell is none where the frame holds NaN. -/

structure RatingPoint where
  category : String
  date : Nat
  rating : Int
deriving Repr, DecidableEq

/-- Cell of the pivoted frame (line 224) at a given date and category:
the rating of the point with that exact date and category, if any. The
pandas pivot raises on duplicate (date, category) pairs, so the theorems
below assume the keys are unique and find? returns the only match. -/
def pivotCell (pts : List RatingPoint) (d : Nat) (c : String) : Option Int :=
  (pts.find? (fun p => p.date == d && p.category == c)).map RatingPoint.rating

/-- Minimum observed date across all categories (every.index.min() at
line 225); the 0 default is never reached for the non-empty frames the
theorems consider. -/
def minDate (pts : List RatingPoint) : Nat :=
  ((pts.map RatingPoint.date).min?).getD 0

/-- Maximum observed date across all categories (every.index.max() at
line 225). -/
def maxDate (pts : List RatingPoint) : Nat :=
  ((pts.map RatingPoint.date).max?).getD 0

/-- Embedding of pd.date_range(start=min, end=max) at line 225: every
calendar day from the minimum to the maximum observed date inclusive, in
ascending order. -/
def all_dates (pts : List RatingPoint) : List Nat :=
  List.range' (minDate pts) (maxDate pts + 1 - minDate pts)

/-- Dates of the final frame after sort_values(by='date', ascending=False)
at line 232: the ascending daily index holds pairwise distinct dates, so
the descending sort is exactly its reversal. -/
def ratingDates (pts : List RatingPoint) : List Nat :=
  (all_dates pts).reverse

/-- Embedding of every.ffill() (line 227) read off at one date of the
reindexed daily index: ffill fills each missing cell from the previous
(already filled) cell along the ascending index, so the cell at date d is
the pivot cell at d when present, and otherwise the filled cell at d - 1;
at the first index entry there is no previous cell. -/
def ffillCell (pts : List RatingPoint) (c : String) (lo : Nat) (d : Nat) : Option Int :=
  if _h : d ≤ lo then pivotCell pts lo c
  else
    match pivotCell pts d c with
    | some r => some r
    | none => ffillCell pts c lo (d - 1)
termination_by d
decreasing_by omega

/-- Embedding of every.combine_first(every_filled) (line 228) at one cell:
the original pivot cell where it is non-null, otherwise the forward-filled
cell. -/
def finalCell (pts : List RatingPoint) (c : String) (d : Nat) : Option Int :=
  match pivotCell pts d c with
  | some r => some r
  | none => ffillCell pts c (minDate pts) d

/-- Specification-side description of forward-filling, written from the
words of the spec and to be compared with the code embedding: r is the
last known value of category c on or before date d when some point of
category c at date at most d carries rating r and no point of category c
at date at most d is later than it. -/
def IsLastOnOrBefore (pts : List RatingPoint) (c : String) (d : Nat) (r : Int) : Prop :=
  ∃ p ∈ pts, p.category = c ∧ p.date ≤ d ∧ p.rating = r ∧
    ∀ q ∈ pts, q.category = c → q.date ≤ d → q.date ≤ p.date

/-- Decidable equality for Except, used to evaluate the embedded fallible
steps on concrete inputs. -/
instance {e a : Type} [DecidableEq e] [DecidableEq a] : DecidableEq (Except e a) := fun x y =>
  match x, y with
  | Except.ok v, Except.ok w =>
    if h : v = w then isTrue (by rw [h])
    else isFalse (fun he => h (by injection he))
  | Except.error v, Except.error w =>
    if h : v = w then isTrue (by rw [h])
    else isFalse (fun he => h (by injection he))
  | Except.ok _, Except.error _ => isFalse (fun he => Except.noConfusion he)
  | Except.error _, Except.ok _ => isFalse (fun he => Except.noConfusion he)

/-! ## Sample data used by witnesses -/

/-- Sample raw game with a clock and a move list, variant standard. -/
def sampleGameA : RawGame :=
  ⟨"a1", "standard", "blitz", 100, some ⟨some 180, some 2⟩, some "e4 e5 Nf3", none⟩

/-- Sample raw correspondence game without clock or moves, carrying a
tournament key. -/
def sampleGameB : RawGame :=
  ⟨"b2", "standard", "correspondence", 50, none, none, some "t1"⟩

/-- Row produced for sampleGameA inside the batch [sampleGameA, sampleGameB]:
because sampleGameB is retained and lacks a move list, the move_count
column loses its integer dtype and turns is null even though move_count
is known. -/
def sampleRowA : MatchRow :=
  ⟨"a1", "blitz", 100, true, some "3+2", some 3, none⟩

/-- Row produced for sampleGameA in the singleton batch [sampleGameA],
where every retained row has a move list and the tournament column is
absent. -/
def sampleRowASolo : MatchRow :=
  ⟨"a1", "blitz", 100, false, some "3+2", some 3, some 2⟩

/-- Row produced for sampleGameB inside the batch [sampleGameA, sampleGameB]. -/
def sampleRowB : MatchRow :=
  ⟨"b2", "correspondence", 50, true, some "daily", none, none⟩

/-! ## Claims about the normalizer -/

/-- C7: with a clock (initial, increment), an initial below 60 seconds is
rendered as the fraction initial/60 reduced by the greatest common
divisor, in the form numerator/denominator+increment, otherwise as
initial/60+increment with integer division; a correspondence game without
a time control gets the literal "daily"; post-formatting, every "s"
character in a time-control string containing "+" is replaced with "m";
in particular initial=30, increment=0 gives "1/2+0" and initial=180,
increment=2 gives "3+2". -/
theorem time_control_format_spec :
    (∀ initial increment : Nat, initial < 60 →
      format_time_control (some ⟨some initial, some increment⟩) =
        some (toString (initial / Nat.gcd initial 60) ++ "/" ++
              toString (60 / Nat.gcd initial 60) ++ "+" ++ toString increment)) ∧
    (∀ initial increment : Nat, 60 ≤ initial →
      format_time_control (some ⟨some initial, some increment⟩) =
        some (toString (initial / 60) ++ "+" ++ toString increment)) ∧
    finalize_time_control "correspondence" none = some "daily" ∧
    (∀ speed s, finalize_time_control speed (some s) =
      some (if pyContainsPlus s then pyReplaceSWithM s else s)) ∧
    finalize_time_control "blitz" (format_time_control (some ⟨some 30, some 0⟩)) = some "1/2+0" ∧
    finalize_time_control "blitz" (format_time_control (some ⟨some 180, some 2⟩)) = some "3+2" := by
  refine ⟨?_, ?_, by decide, fun speed s => rfl, by decide, by decide⟩
  · intro initial increment h
    simp [format_time_control, h]
  · intro initial increment h
    simp [format_time_control, Nat.not_lt.mpr h]

/-- Witness for C7: the hypotheses of the two conditional clauses hold at
initial=30 and initial=180. -/
theorem time_control_format_spec_witness :
    format_time_control (some ⟨some 30, some 0⟩) =
      some (toString (30 / Nat.gcd 30 60) ++ "/" ++
            toString (60 / Nat.gcd 30 60) ++ "+" ++ toString 0) ∧
    format_time_control (some ⟨some 180, some 2⟩) =
      some (toString (180 / 60) ++ "+" ++ toString 2) :=
  ⟨time_control_format_spec.1 30 0 (by decide),
   time_control_format_spec.2.1 180 2 (by decide)⟩

/-- C2 (code bug): a second pipeline run in which the remote source returns
zero new records reaches fetch_games.py line 210 with an empty DataFrame,
and the tuple unpacking of zip over the empty row sequence raises
ValueError instead of terminating successfully, so no dataset at all is
produced by the second run. -/
theorem second_run_empty_fetch_crashes :
    process_games [] = Except.error "not enough values to unpack (expected 2, got 0)" := rfl

/-- C9 (counterexample): in a batch where the moves column exists but one
retained row lacks a move list, pandas promotes the move_count column away
from integer dtype, the isinstance(mc, int) guard at fetch_games.py line
234 fails at every row, and turns is null even for the row whose
move_count is known: the first sample row has move_count 3 but turns
null, where the claim demands (3 + 1) / 2 = 2. -/
theorem turns_dtype_counterexample :
    process_games [sampleGameA, sampleGameB] =
      Except.ok [sampleRowA, sampleRowB] ∧
    sampleRowA.move_count = some 3 ∧
    sampleRowA.turns = none ∧
    sampleRowA.turns ≠ sampleRowA.move_count.map (fun mc => (mc + 1) / 2) :=
  ⟨by decide, by decide, by decide, by decide⟩

/-- C9 (amended): in every successfully processed batch, each emitted row
has move_count equal to the number of whitespace-delimited tokens of the
raw move list when that list is present and null otherwise; turns equals
(move_count + 1) / 2 by integer division only when every retained
(standard-variant) row of the batch has a move list, so that the
move_count column keeps integer elements; when any retained row lacks a
move list, the isinstance(mc, int) guard fails and turns is null for
every row of the batch, even where move_count is known. -/
theorem move_count_turns_spec (games : List RawGame) (rows : List MatchRow)
    (h : process_games games = Except.ok rows) :
    (∀ row ∈ rows,
      ∃ g ∈ games, g.variant = "standard" ∧ row.game_id = g.id ∧
        row.move_count = g.moves.map countTokens) ∧
    (move_count_stays_int (games.filter (fun g => g.variant == "standard")) = true →
      ∀ row ∈ rows, row.turns = row.move_count.map (fun mc => (mc + 1) / 2)) ∧
    (move_count_stays_int (games.filter (fun g => g.variant == "standard")) = false →
      ∀ row ∈ rows, row.turns = none) := by
  cases games with
  | nil => simp [process_games] at h
  | cons g0 gs =>
    simp only [process_games] at h
    injection h with h
    subst h
    refine ⟨?_, ?_, ?_⟩
    · intro row hrow
      obtain ⟨g, hgkept, rfl⟩ := List.mem_map.mp hrow
      obtain ⟨hgmem, hvar⟩ := List.mem_filter.mp hgkept
      have hvar' : g.variant = "standard" := by simpa using hvar
      refine ⟨g, hgmem, hvar', rfl, ?_⟩
      cases hhm : has_moves_column (g0 :: gs) with
      | true => simp [normalize_game, hhm]
      | false =>
        have hnone : g.moves = none := by
          cases hmv : g.moves with
          | none => rfl
          | some m =>
            have := List.any_eq_false.mp hhm g hgmem
            simp [hmv] at this
        simp [normalize_game, hhm, hnone]
    · intro hint row hrow
      obtain ⟨g, hgkept, rfl⟩ := List.mem_map.mp hrow
      have hsome : g.moves.isSome := by
        have := List.all_eq_true.mp hint g hgkept
        simpa using this
      have hhm : has_moves_column (g0 :: gs) = true := by
        apply List.any_eq_true.mpr
        obtain ⟨hgmem, _⟩ := List.mem_filter.mp hgkept
        exact ⟨g, hgmem, hsome⟩
      simp [normalize_game, hhm, hint]
    · intro hint row hrow
      obtain ⟨g, hgkept, rfl⟩ := List.mem_map.mp hrow
      simp [normalize_game, hint]

/-- Witness for C9 (amended): in the singleton batch every retained row
has a move list, so move_count is the token count and turns is
(move_count + 1) / 2. -/
theorem move_count_turns_spec_witness :
    (∃ g ∈ [sampleGameA], g.variant = "standard" ∧
      sampleRowASolo.game_id = g.id ∧
      sampleRowASolo.move_count = g.moves.map countTokens) ∧
    sampleRowASolo.turns = sampleRowASolo.move_count.map (fun mc => (mc + 1) / 2) :=
  ⟨(move_count_turns_spec [sampleGameA] [sampleRowASolo] (by decide)).1
      sampleRowASolo (by decide),
   (move_count_turns_spec [sampleGameA] [sampleRowASolo] (by decide)).2.1
      (by decide) sampleRowASolo (by decide)⟩

/-- C10: within one processed batch every emitted row carries the same
tournament boolean, namely whether the raw batch has a tournament column
at all, independent of which individual games were tournament games. -/
theorem tournament_flag_spec (games : List RawGame) (rows : List MatchRow)
    (h : process_games games = Except.ok rows) :
    (∀ row ∈ rows, row.tournament = has_tournament_column games) ∧
    (∀ r1 ∈ rows, ∀ r2 ∈ rows, r1.tournament = r2.tournament) := by
  have key : ∀ row ∈ rows, row.tournament = has_tournament_column games := by
    cases games with
    | nil => simp [process_games] at h
    | cons g0 gs =>
      simp only [process_games] at h
      injection h with h
      subst h
      intro row hrow
      obtain ⟨g, _, rfl⟩ := List.mem_map.mp hrow
      rfl
  exact ⟨key, fun r1 h1 r2 h2 => (key r1 h1).trans (key r2 h2).symm⟩

/-- Witness for C10: in the sample batch only sampleGameB carries a
tournament key, yet both rows get tournament = true. -/
theorem tournament_flag_spec_witness :
    sampleRowA.tournament = has_tournament_column [sampleGameA, sampleGameB] ∧
    sampleRowA.tournament = sampleRowB.tournament :=
  ⟨(tournament_flag_spec [sampleGameA, sampleGameB] [sampleRowA, sampleRowB]
      (by decide)).1 sampleRowA (by decide),
   (tournament_flag_spec [sampleGameA, sampleGameB] [sampleRowA, sampleRowB]
      (by decide)).2 sampleRowA (by decide) sampleRowB (by decide)⟩

/-! ## Claims about the merge -/

/-- C1 (counterexample): merging a batch that re-fetches an already
persisted game keeps both copies, so game_id is not unique across the
merged dataset; the source performs no deduplication. -/
theorem merge_dedup_counterexample :
    (merge_games [⟨"g1", "blitz", 5, false, none, none, none⟩]
                 [⟨"g1", "blitz", 5, false, none, none, none⟩]).map MatchRow.game_id
      = ["g1", "g1"] ∧
    ¬ ((merge_games [⟨"g1", "blitz", 5, false, none, none, none⟩]
                    [⟨"g1", "blitz", 5, false, none, none, none⟩]).map
        MatchRow.game_id).Nodup := by
  exact ⟨by decide, by decide⟩

/-- C1 (amended): the merge concatenates the incoming rows with the
existing rows and sorts by created_at descending, with no deduplication:
the result is a permutation of the concatenation, and game_id is unique in
it only when it was already unique in the concatenation. -/
theorem merge_concat_sort_spec (incoming existing : List MatchRow) :
    (merge_games incoming existing).Perm (incoming ++ existing) ∧
    List.Sorted laterFirst (merge_games incoming existing) ∧
    (((incoming ++ existing).map MatchRow.game_id).Nodup →
      ((merge_games incoming existing).map MatchRow.game_id).Nodup) := by
  refine ⟨List.perm_insertionSort laterFirst _,
    List.sorted_insertionSort laterFirst _, fun h => ?_⟩
  exact (((List.perm_insertionSort laterFirst (incoming ++ existing)).map
    MatchRow.game_id).nodup_iff).mpr h

/-- Witness for C1 (amended): two disjoint single-row datasets merge to a
dataset with unique game_id. -/
theorem merge_concat_sort_spec_witness :
    ((merge_games [⟨"g1", "blitz", 5, false, none, none, none⟩]
                  [⟨"g2", "blitz", 3, false, none, none, none⟩]).map
      MatchRow.game_id).Nodup :=
  (merge_concat_sort_spec [⟨"g1", "blitz", 5, false, none, none, none⟩]
    [⟨"g2", "blitz", 3, false, none, none, none⟩]).2.2 (by decide)

/-! ## Claims about the watermark -/

/-- C4 (counterexample): a dataset whose single game was created at epoch
instant 0 has maximum created_at T = 0, yet the fetch request carries no
since parameter at all (the source guards on max_created_at > 0), instead
of since = T + 1 = 1; moreover a downloaded dataset with a created_at
column but no rows raises instead of fetching everything. -/
theorem watermark_epoch_counterexample :
    since_param (some (Except.ok ⟨true, [0]⟩)) = Except.ok none ∧
    (Except.ok none : Except String (Option Int)) ≠ Except.ok (some (0 + 1)) ∧
    resolve_watermark (some (Except.ok ⟨true, []⟩)) =
      Except.error "NaTType does not support timestamp" :=
  ⟨by decide, by decide, by decide⟩

/-- C4 (amended): for every downloaded dataset with a created_at column
whose maximum created_at T is strictly positive, the fetch carries
since = T + 1, which never re-includes the record at T; when no existing
dataset can be downloaded, the fetch requests all records with no since
bound. -/
theorem watermark_since_spec (f : CsvFrame) (m : Int)
    (hcol : f.hasCreatedAt = true) (hmax : f.createdAtMs.max? = some m)
    (hpos : 0 < m) :
    since_param (some (Except.ok f)) = Except.ok (some (m + 1)) ∧
    since_includes (some (m + 1)) m = false ∧
    (∀ t, since_includes (some (m + 1)) t = true ↔ m + 1 ≤ t) ∧
    since_param none = Except.ok none := by
  refine ⟨?_, ?_, fun t => ?_, rfl⟩
  · simp [since_param, resolve_watermark, Except.map, hcol, hmax, hpos]
  · simp [since_includes]
  · simp [since_includes]

/-- Witness for C4 (amended): a dataset with maximum created_at 5 yields
since = 6, and the record at 5 is not re-included. -/
theorem watermark_since_spec_witness :
    since_param (some (Except.ok ⟨true, [5]⟩)) = Except.ok (some (5 + 1)) ∧
    since_includes (some (5 + 1)) 5 = false :=
  ⟨(watermark_since_spec ⟨true, [5]⟩ 5 rfl (by decide) (by decide)).1,
   (watermark_since_spec ⟨true, [5]⟩ 5 rfl (by decide) (by decide)).2.1⟩

/-- C5 (counterexample): when the persisted bytes are downloaded but fail
to parse, pd.read_csv raises outside any exception handler, so the run
fails instead of falling back to fetching everything. -/
theorem watermark_parse_error_counterexample :
    resolve_watermark (some (Except.error "ParserError: malformed CSV")) =
      Except.error "ParserError: malformed CSV" ∧
    (Except.error "ParserError: malformed CSV" : Except String Int) ≠
      Except.ok 0 :=
  ⟨rfl, by decide⟩

/-- C5 (amended): the watermark resolver falls back to no watermark when
the download itself fails (download_from_drive returns False) or when the
parsed dataset lacks a created_at column; a parse failure of downloaded
bytes propagates and aborts the run. -/
theorem watermark_fallback_spec :
    resolve_watermark none = Except.ok 0 ∧
    (∀ f : CsvFrame, f.hasCreatedAt = false →
      resolve_watermark (some (Except.ok f)) = Except.ok 0) ∧
    (∀ e : String, resolve_watermark (some (Except.error e)) = Except.error e) := by
  refine ⟨rfl, fun f hf => ?_, fun e => rfl⟩
  simp [resolve_watermark, hf]

/-- Witness for C5 (amended): a parsed frame without a created_at column
resolves to no watermark. -/
theorem watermark_fallback_spec_witness :
    resolve_watermark (some (Except.ok ⟨false, [7]⟩)) = Except.ok 0 :=
  watermark_fallback_spec.2.1 ⟨false, [7]⟩ rfl

/-! ## Claims about the publisher -/

/-- Generalized trace of the upload retry loop started at any attempt
index: transient failures up to the first success produce one backoff
sleep of 2 ^ attempt seconds per failure and exactly one final write. -/
theorem upload_succeeds_after (a : Artifact) (env : Nat → DriveResp) :
    ∀ (k j : Nat) (found : Bool), j + k < max_retries →
      (∀ i, i < k → env (j + i) = DriveResp.transient) →
      env (j + k) = DriveResp.listed found →
      upload_to_drive a env j =
        ⟨(List.range k).map (fun i => 2 ^ (j + i)),
         [if found then WriteOp.update a.name a.sizeBytes
          else WriteOp.create a.name a.sizeBytes],
         false⟩ := by
  intro k
  induction k with
  | zero =>
    intro j found _ _ hsucc
    rw [upload_to_drive]
    simp only [Nat.add_zero] at hsucc
    rw [hsucc]
    cases found <;> simp
  | succ k ih =>
    intro j found hlt hfail hsucc
    have h0 : env j = DriveResp.transient := by
      simpa using hfail 0 (Nat.succ_pos k)
    have hj : j < max_retries - 1 := by
      simp only [max_retries] at hlt ⊢; omega
    have ih' := ih (j + 1) found (by omega)
      (fun i hi => by
        have h2 := hfail (i + 1) (by omega)
        have he : j + 1 + i = j + (i + 1) := by omega
        rw [he]
        exact h2)
      (by
        have he : j + 1 + k = j + (k + 1) := by omega
        rw [he]
        exact hsucc)
    rw [upload_to_drive, h0, dif_pos hj]
    simp only [ih']
    have harw : (List.range (k + 1)).map (fun i => 2 ^ (j + i)) =
        2 ^ j :: (List.range k).map (fun i => 2 ^ (j + 1 + i)) := by
      rw [List.range_succ_eq_map, List.map_cons, List.map_map]
      simp only [Nat.add_zero]
      congr 1
      apply List.map_congr_left
      intro i _
      simp only [Function.comp_apply]
      congr 1
      omega
    rw [harw]

/-- C6: a transient error on an attempt triggers a backoff sleep of
2 ^ attempt seconds followed by a retry, for at most 5 attempts in total;
a success before the bound performs exactly one final object write
(update when an object of that name exists in the target folder, create
otherwise) after one sleep per preceding failure; exhausting all 5
attempts performs no write and re-raises the error to the caller. -/
theorem publish_retry_spec (a : Artifact) (env : Nat → DriveResp) :
    (∀ (k : Nat) (found : Bool), k < max_retries →
      (∀ i, i < k → env i = DriveResp.transient) →
      env k = DriveResp.listed found →
      upload_to_drive a env 0 =
        ⟨(List.range k).map (fun i => 2 ^ i),
         [if found then WriteOp.update a.name a.sizeBytes
          else WriteOp.create a.name a.sizeBytes],
         false⟩) ∧
    ((∀ i, i < max_retries → env i = DriveResp.transient) →
      upload_to_drive a env 0 = ⟨[1, 2, 4, 8], [], true⟩) := by
  constructor
  · intro k found hk hfail hsucc
    have h := upload_succeeds_after a env k 0 found (by omega)
      (fun i hi => by simpa using hfail i hi) (by simpa using hsucc)
    simpa using h
  · intro hfail
    simp [upload_to_drive, max_retries, hfail 0 (by decide), hfail 1 (by decide),
      hfail 2 (by decide), hfail 3 (by decide), hfail 4 (by decide)]

/-- Witness for C6: transient failures on the first two attempts followed
by success on the third give exactly two backoff sleeps of increasing
duration (1 then 2 seconds) and exactly one update. -/
theorem publish_retry_spec_witness :
    upload_to_drive ⟨"games_user.csv", 1000⟩
      (fun i => if i < 2 then DriveResp.transient else DriveResp.listed true) 0 =
      ⟨[1, 2], [WriteOp.update "games_user.csv" 1000], false⟩ := by
  have h := (publish_retry_spec ⟨"games_user.csv", 1000⟩
      (fun i => if i < 2 then DriveResp.transient else DriveResp.listed true)).1
      2 true (by decide) (fun i hi => by simp [hi]) (by simp)
  exact h.trans (by decide)

/-- C3 (counterexample): a serialized dataset of 16 MiB, above the 15 MB
threshold the claim describes, is still published as a single artifact
under its original name with the full content, not as two or more parts. -/
theorem publish_no_split_counterexample :
    (upload_to_drive ⟨"games_user.csv", 16777216⟩
      (fun _ => DriveResp.listed true) 0).writes
      = [WriteOp.update "games_user.csv" 16777216] ∧
    ¬ 2 ≤ (upload_to_drive ⟨"games_user.csv", 16777216⟩
      (fun _ => DriveResp.listed true) 0).writes.length := by
  constructor <;> simp [upload_to_drive]

/-- C3 (amended): whatever the serialized size, a publish whose first
attempt succeeds performs exactly one write of the whole artifact under
its original name; the source has no size threshold and no splitting. -/
theorem publish_whole_file_spec (a : Artifact) (env : Nat → DriveResp)
    (found : Bool) (h : env 0 = DriveResp.listed found) :
    upload_to_drive a env 0 =
      ⟨[], [if found then WriteOp.update a.name a.sizeBytes
            else WriteOp.create a.name a.sizeBytes], false⟩ ∧
    (upload_to_drive a env 0).writes.length = 1 := by
  have heq : upload_to_drive a env 0 =
      ⟨[], [if found then WriteOp.update a.name a.sizeBytes
            else WriteOp.create a.name a.sizeBytes], false⟩ := by
    rw [upload_to_drive, h]
    cases found <;> simp
  exact ⟨heq, by rw [heq]; cases found <;> rfl⟩

/-- Witness for C3 (amended): a 20 MB artifact is uploaded whole as one
newly created object. -/
theorem publish_whole_file_spec_witness :
    upload_to_drive ⟨"games_user.csv", 20000000⟩
      (fun _ => DriveResp.listed false) 0 =
      ⟨[], [WriteOp.create "games_user.csv" 20000000], false⟩ :=
  ((publish_whole_file_spec ⟨"games_user.csv", 20000000⟩
    (fun _ => DriveResp.listed false) false rfl).1).trans (by decide)

/-! ## Claims about the rating forward-fill -/

/-- A non-none pivot cell comes from a point with exactly that date and
category. -/
theorem pivotCell_eq_some_imp {pts : List RatingPoint} {d : Nat} {c : String}
    {r : Int} (h : pivotCell pts d c = some r) :
    ∃ p ∈ pts, p.category = c ∧ p.date = d ∧ p.rating = r := by
  unfold pivotCell at h
  cases hf : pts.find? (fun p => p.date == d && p.category == c) with
  | none => rw [hf] at h; simp at h
  | some p =>
    rw [hf] at h
    simp only [Option.map_some', Option.some.injEq] at h
    have hp := List.find?_some hf
    simp only [Bool.and_eq_true, beq_iff_eq] at hp
    exact ⟨p, List.mem_of_find?_eq_some hf, hp.2, hp.1, h⟩

/-- A none pivot cell means no point has that date and category. -/
theorem pivotCell_eq_none_imp {pts : List RatingPoint} {d : Nat} {c : String}
    (h : pivotCell pts d c = none) :
    ∀ p ∈ pts, p.category = c → p.date ≠ d := by
  unfold pivotCell at h
  cases hf : pts.find? (fun p => p.date == d && p.category == c) with
  | some p => rw [hf] at h; simp at h
  | none =>
    intro p hp hc hd
    have := List.find?_eq_none.mp hf p hp
    simp [hc, hd] at this

/-- Under unique (category, date) keys, the pivot cell at the date and
category of a point holds exactly that point's rating. -/
theorem pivotCell_of_mem {pts : List RatingPoint} {p : RatingPoint}
    {d : Nat} {c : String}
    (huniq : ∀ p1 ∈ pts, ∀ p2 ∈ pts,
      p1.category = p2.category → p1.date = p2.date → p1 = p2)
    (hp : p ∈ pts) (hc : p.category = c) (hd : p.date = d) :
    pivotCell pts d c = some p.rating := by
  have hsome : (pts.find? (fun q => q.date == d && q.category == c)).isSome := by
    rw [List.find?_isSome]
    exact ⟨p, hp, by simp [hc, hd]⟩
  obtain ⟨q, hq⟩ := Option.isSome_iff_exists.mp hsome
  have hqpred := List.find?_some hq
  simp only [Bool.and_eq_true, beq_iff_eq] at hqpred
  have hqmem := List.mem_of_find?_eq_some hq
  have hpq : p = q := huniq p hp q hqmem (by rw [hc, hqpred.2]) (by rw [hd, hqpred.1])
  unfold pivotCell
  rw [hq, ← hpq]
  rfl

/-- The minimum observed date is attained and bounds every date below. -/
theorem minDate_spec {pts : List RatingPoint} (hne : pts ≠ []) :
    (∃ p ∈ pts, p.date = minDate pts) ∧ ∀ p ∈ pts, minDate pts ≤ p.date := by
  obtain ⟨m, hm⟩ : ∃ m, (pts.map RatingPoint.date).min? = some m := by
    cases pts with
    | nil => exact absurd rfl hne
    | cons p ps => exact ⟨_, rfl⟩
  have hchar := (List.min?_eq_some_iff le_refl min_choice
    (fun a b c => le_min_iff)).mp hm
  have hmin : minDate pts = m := by simp [minDate, hm]
  constructor
  · obtain ⟨p, hp, hpd⟩ := List.mem_map.mp hchar.1
    exact ⟨p, hp, by rw [hmin, hpd]⟩
  · intro p hp
    rw [hmin]
    exact hchar.2 _ (List.mem_map.mpr ⟨p, hp, rfl⟩)

/-- The maximum observed date is attained and bounds every date above. -/
theorem maxDate_spec {pts : List RatingPoint} (hne : pts ≠ []) :
    (∃ p ∈ pts, p.date = maxDate pts) ∧ ∀ p ∈ pts, p.date ≤ maxDate pts := by
  obtain ⟨m, hm⟩ : ∃ m, (pts.map RatingPoint.date).max? = some m := by
    cases pts with
    | nil => exact absurd rfl hne
    | cons p ps => exact ⟨_, rfl⟩
  have hchar := (List.max?_eq_some_iff le_refl max_choice
    (fun a b c => max_le_iff)).mp hm
  have hmax : maxDate pts = m := by simp [maxDate, hm]
  constructor
  · obtain ⟨p, hp, hpd⟩ := List.mem_map.mp hchar.1
    exact ⟨p, hp, by rw [hmax, hpd]⟩
  · intro p hp
    rw [hmax]
    exact hchar.2 _ (List.mem_map.mpr ⟨p, hp, rfl⟩)

/-- Forward-filling along the daily index from the first observed date
computes exactly the last known value on or before each date. -/
theorem ffillCell_iff_last {pts : List RatingPoint} {c : String} {lo : Nat}
    (huniq : ∀ p1 ∈ pts, ∀ p2 ∈ pts,
      p1.category = p2.category → p1.date = p2.date → p1 = p2)
    (hlo : ∀ p ∈ pts, lo ≤ p.date) :
    ∀ d, lo ≤ d → ∀ r : Int,
      (ffillCell pts c lo d = some r ↔ IsLastOnOrBefore pts c d r) := by
  intro d hd
  induction d, hd using Nat.le_induction with
  | base =>
    intro r
    rw [ffillCell, dif_pos le_rfl]
    constructor
    · intro h
      obtain ⟨p, hp, hc, hdate, hr⟩ := pivotCell_eq_some_imp h
      exact ⟨p, hp, hc, le_of_eq hdate, hr,
        fun q hq hqc hqd => by rw [hdate]; exact hqd⟩
    · rintro ⟨p, hp, hc, hdle, hr, hmax⟩
      have hdeq : p.date = lo := le_antisymm hdle (hlo p hp)
      rw [pivotCell_of_mem huniq hp hc hdeq, hr]
  | succ n hn ih =>
    intro r
    rw [ffillCell, dif_neg (by omega)]
    cases hpiv : pivotCell pts (n + 1) c with
    | some rr =>
      simp only [hpiv]
      constructor
      · intro h
        have hrr : rr = r := by injection h
        obtain ⟨p, hp, hc2, hdate, hr2⟩ := pivotCell_eq_some_imp hpiv
        exact ⟨p, hp, hc2, le_of_eq hdate, by rw [hr2, hrr],
          fun q hq hqc hqd => by rw [hdate]; exact hqd⟩
      · rintro ⟨p, hp, hc2, hdle, hr2, hmax⟩
        obtain ⟨q, hq, hqc, hqdate, hqr⟩ := pivotCell_eq_some_imp hpiv
        have hple : q.date ≤ p.date := hmax q hq hqc (le_of_eq hqdate)
        have hpdate : p.date = n + 1 :=
          le_antisymm hdle (by rw [← hqdate]; exact hple)
        have hpq : p = q :=
          huniq p hp q hq (hc2.trans hqc.symm) (hpdate.trans hqdate.symm)
        congr 1
        rw [← hqr, ← hpq, hr2]
    | none =>
      simp only [hpiv]
      have hstep : n + 1 - 1 = n := rfl
      rw [hstep]
      constructor
      · intro h
        obtain ⟨p, hp, hc2, hdle, hr2, hmax⟩ := (ih r).mp h
        refine ⟨p, hp, hc2, by omega, hr2, fun q hq hqc hqd => ?_⟩
        have hqne : q.date ≠ n + 1 := pivotCell_eq_none_imp hpiv q hq hqc
        exact hmax q hq hqc (by omega)
      · rintro ⟨p, hp, hc2, hdle, hr2, hmax⟩
        apply (ih r).mpr
        have hpne : p.date ≠ n + 1 := pivotCell_eq_none_imp hpiv p hp hc2
        exact ⟨p, hp, hc2, by omega, hr2,
          fun q hq hqc hqd => hmax q hq hqc (by omega)⟩

/-- The combine_first overlay agrees with the forward-filled frame on the
daily index, because forward-filling already preserves original cells. -/
theorem finalCell_eq_ffillCell {pts : List RatingPoint} {c : String} {d : Nat}
    (hd : minDate pts ≤ d) :
    finalCell pts c d = ffillCell pts c (minDate pts) d := by
  unfold finalCell
  cases hpiv : pivotCell pts d c with
  | none => simp only [hpiv]
  | some r =>
    simp only [hpiv]
    rcases eq_or_lt_of_le hd with heq | hlt
    · rw [ffillCell, dif_pos (le_of_eq heq.symm), heq]
      exact hpiv.symm
    · rw [ffillCell, dif_neg (by omega)]
      simp only [hpiv]

/-- C8: for a non-empty set of normalized rating points with unique
(category, date) keys, the derived rating dataset has exactly one row per
calendar day from the minimum to the maximum observed date inclusive with
no gaps, sorted by date descending; each category cell holds the last
known value on or before that date, and a date strictly before the first
observed point of a category has that cell absent. -/
theorem rating_forward_fill_spec (pts : List RatingPoint)
    (hne : pts ≠ [])
    (huniq : ∀ p1 ∈ pts, ∀ p2 ∈ pts,
      p1.category = p2.category → p1.date = p2.date → p1 = p2) :
    (∀ d, d ∈ ratingDates pts ↔ (minDate pts ≤ d ∧ d ≤ maxDate pts)) ∧
    (ratingDates pts).Nodup ∧
    List.Sorted (fun a b => b < a) (ratingDates pts) ∧
    (∀ (c : String) (d : Nat) (r : Int), minDate pts ≤ d → d ≤ maxDate pts →
      (finalCell pts c d = some r ↔ IsLastOnOrBefore pts c d r)) ∧
    (∀ (c : String) (d : Nat), minDate pts ≤ d → d ≤ maxDate pts →
      (∀ p ∈ pts, p.category = c → d < p.date) → finalCell pts c d = none) := by
  have hlohi : minDate pts ≤ maxDate pts := by
    obtain ⟨⟨p, hp, _⟩, hminle⟩ := minDate_spec hne
    exact le_trans (hminle p hp) ((maxDate_spec hne).2 p hp)
  have hmem : ∀ d, d ∈ ratingDates pts ↔ (minDate pts ≤ d ∧ d ≤ maxDate pts) := by
    intro d
    unfold ratingDates all_dates
    rw [List.mem_reverse, List.mem_range'_1]
    omega
  have hfinal : ∀ (c : String) (d : Nat) (r : Int),
      minDate pts ≤ d → d ≤ maxDate pts →
      (finalCell pts c d = some r ↔ IsLastOnOrBefore pts c d r) := by
    intro c d r hlo _
    rw [finalCell_eq_ffillCell hlo]
    exact ffillCell_iff_last huniq (minDate_spec hne).2 d hlo r
  refine ⟨hmem, ?_, ?_, hfinal, ?_⟩
  · unfold ratingDates all_dates
    rw [List.nodup_reverse]
    exact List.nodup_range' _ _
  · show List.Pairwise (fun a b => b < a) (all_dates pts).reverse
    rw [List.pairwise_reverse]
    unfold all_dates
    exact List.pairwise_lt_range' _ _
  · intro c d hlo hhi hafter
    cases hfc : finalCell pts c d with
    | none => rfl
    | some r =>
      obtain ⟨p, hp, hc2, hdle, _, _⟩ := (hfinal c d r hlo hhi).mp hfc
      exact absurd hdle (by have := hafter p hp hc2; omega)

/-- Witness for C8: with blitz points at days 1 and 3 and a bullet point at
day 0, the blitz cell at day 2 holds the day-1 rating 1500, and the blitz
cell at day 0 (a row before the first blitz point) is absent. -/
theorem rating_forward_fill_spec_witness :
    finalCell [⟨"blitz", 1, 1500⟩, ⟨"blitz", 3, 1520⟩, ⟨"bullet", 0, 1400⟩]
      "blitz" 2 = some 1500 ∧
    finalCell [⟨"blitz", 1, 1500⟩, ⟨"blitz", 3, 1520⟩, ⟨"bullet", 0, 1400⟩]
      "blitz" 0 = none := by
  constructor
  · exact ((rating_forward_fill_spec
      [⟨"blitz", 1, 1500⟩, ⟨"blitz", 3, 1520⟩, ⟨"bullet", 0, 1400⟩]
      (by decide) (by decide)).2.2.2.1 "blitz" 2 1500
      (by decide) (by decide)).mpr
      ⟨⟨"blitz", 1, 1500⟩, by decide, rfl, by decide, rfl, by decide⟩
  · exact (rating_forward_fill_spec
      [⟨"blitz", 1, 1500⟩, ⟨"blitz", 3, 1520⟩, ⟨"bullet", 0, 1400⟩]
      (by decide) (by decide)).2.2.2.2 "blitz" 0
      (by decide) (by decide) (by decide)
